import Mathlib

/-!
Shallow embedding of the Flame data-ingestion core (`src/idata.py`) and of the
configuration stamp (`flame/parameters.py`), together with theorems settling
the specification claims about them.

Machine floating-point descriptor values are never inspected by the code under
study (they are only moved around and stacked), so they are modelled by an
opaque stand-in type.  Python-level abnormal termination (an uncaught
exception) is modelled with `Except`; the normal Python return value
`(success, result)` is the payload of the `Except.ok` case.
-/

namespace Flame

/-- Stand-in for a numpy double-precision value; the code never inspects
descriptor entries, it only stores and stacks them. -/
abbrev Val := Int

/-- Model of a numpy 2-D array: the list of its rows. -/
structure Mat where
  data : List (List Val)
deriving DecidableEq

/-- Column count of a (rectangular) 2-D array, read off its first row. -/
def Mat.ncols (m : Mat) : Nat := ((m.data.head?).map List.length).getD 0

/-- Python-level abnormal termination (an uncaught exception escaping the
function): referencing an unbound local name, or a numpy `ValueError`. -/
inductive PyErr where
  | unboundLocal
  | valueError (msg : String)
deriving DecidableEq

/-- One element of the `nnames` accumulator built by `Idata.consolidate`:
the first chunk contributes its variable names one by one, while
`nnames.append(internal[1])` appends a later chunk's whole name list as a
single nested element. -/
inductive NameEntry where
  | name (s : String)
  | sublist (names : List String)
deriving DecidableEq

/-- One per-chunk processing result handed to `Idata.consolidate`:
`iresults[0]` is the success flag, `iresults[1]` is either the
`(xmatrix, var_name)` payload or the error message. -/
inductive ChunkRes where
  | ok (xmatrix : Mat) (names : List String)
  | fail (msg : String)
deriving DecidableEq

/-- The message of the `ValueError` numpy raises when `np.vstack` receives
arrays whose column counts differ. -/
def vstackErr : String :=
  "all the input array dimensions except for the concatenation axis must match exactly"

/-- The `for iresults in results` loop of `Idata.consolidate`
(src/idata.py:240-264).  The accumulator is `None` exactly while `first` is
still `True` (both are updated together in the source).  A failed chunk stops
the loop (`break`) carrying its message; a column-count mismatch makes
`np.vstack` raise a `ValueError`. -/
def consLoop (acc : Option (Mat × List NameEntry)) :
    List ChunkRes → Except PyErr (Option String × Option (Mat × List NameEntry))
  | [] => .ok (none, acc)
  | .fail msg :: _ => .ok (some msg, acc)
  | .ok m names :: rest =>
    match acc with
    | none => consLoop (some (m, names.map NameEntry.name)) rest
    | some (accM, accN) =>
      if accM.ncols = m.ncols then
        consLoop (some (⟨accM.data ++ m.data⟩, accN ++ [NameEntry.sublist names])) rest
      else .error (.valueError vstackErr)

/-- `Idata.consolidate` (src/idata.py:231-269).  After the loop the source
executes `if success: result = (nresults, nnames)` and then `return True,
result`: when some chunk failed, `result` was never assigned, so the final
statement raises `UnboundLocalError`; the literal `True` means a failure flag
is never returned.  The `nobj` argument is accepted and never used, as in the
source. -/
def Idata.consolidate (results : List ChunkRes) (_nobj : List Nat) :
    Except PyErr (Bool × (Option Mat × List NameEntry)) :=
  match consLoop none results with
  | .error e => .error e
  | .ok (some _msg, _) => .error .unboundLocal
  | .ok (none, none) => .ok (true, (none, []))
  | .ok (none, some (m, ns)) => .ok (true, (some m, ns))

/-- C1: on a chunk-result list whose first element is a failed chunk (with a
later successful chunk), `consolidate` does abort at the failed chunk, but it
raises `UnboundLocalError` at `return True, result` instead of returning a
`(False, message)` outcome: the claimed failure outcome is never produced. -/
theorem consolidate_failed_chunk_raises :
    Idata.consolidate [ChunkRes.fail "boom", ChunkRes.ok ⟨[[7]]⟩ ["d1"]] [] =
      Except.error PyErr.unboundLocal := rfl

/-- C3: two successful chunks whose matrices have 2 and 3 columns make
`consolidate` terminate abnormally with the numpy `ValueError` raised by
`np.vstack`, instead of returning a `(False, message)` shape-consistency
failure outcome. -/
theorem consolidate_column_mismatch_raises :
    Idata.consolidate
        [ChunkRes.ok ⟨[[1, 2]]⟩ ["a", "b"], ChunkRes.ok ⟨[[3, 4, 5]]⟩ ["a", "b", "c"]] [] =
      Except.error (PyErr.valueError vstackErr) := rfl

/-- C6: consolidating two successful chunks that carry the same two-name
descriptor list yields a merged name structure of length 3 whose last element
is the second chunk's whole list nested as one entry — not a flat sequence of
length equal to the merged matrix's column count (2). -/
theorem consolidate_names_not_flat :
    Idata.consolidate
        [ChunkRes.ok ⟨[[1, 2]]⟩ ["a", "b"], ChunkRes.ok ⟨[[3, 4]]⟩ ["a", "b"]] [] =
      Except.ok (true, (some ⟨[[1, 2], [3, 4]]⟩,
        [NameEntry.name "a", NameEntry.name "b", NameEntry.sublist ["a", "b"]])) ∧
    [NameEntry.name "a", NameEntry.name "b", NameEntry.sublist ["a", "b"]].length = 3 ∧
    Mat.ncols ⟨[[1, 2], [3, 4]]⟩ = 2 := ⟨rfl, rfl, rfl⟩

/-! ## Configuration and the single-file workflow (src/idata.py:159-229, 282-323) -/

/-- The slice of the `control` / `Parameters` object read by the `Idata`
pipeline (see the configuration surface note in `Idata.__init__` and the
attribute accesses throughout src/idata.py).  `convert3D_method` is `None`
or a collection of method names; `MD` is the collection of enabled
descriptor-method names. -/
structure Control where
  chemstand_method : String
  ionize_method : Option String
  convert3D_method : Option (List String)
  MD : List String
  SDFile_name : String
  SDFile_activity : String
  SDFile_experimental : String

/-- A dynamically typed Python result value as threaded through `computeMD`
and `workflow`: either an error-message / file-path string or an
`(xmatrix, md_nam)` descriptor pair. -/
inductive PyRes where
  | str (s : String)
  | mdpair (xmatrix : Mat) (names : List String)
deriving DecidableEq

/-- Python `str()` applied to a `PyRes` (the workflow interpolates `results`
into error messages with `str(results)`; on the paths exercised it is always
already a string). -/
def pyStr : PyRes → String
  | .str s => s
  | .mdpair _ _ => "<ndarray>"

/-- Observable outcomes of the external collaborators called by the pipeline:
the per-stage return values of `self.normalize`, `convert3D._ETKDG`,
`computeMD._RDKit_properties` and `computeMD._RDKit_descriptors` at a given
file path.  Each is the `(success, result)` pair those calls return. -/
structure WEnv where
  normalize : String → Bool × String
  etkdg : String → Bool × String
  rdkitProps : String → Bool × PyRes
  rdkitDesc : String → Bool × PyRes

/-- `Idata.ionize` (src/idata.py:159-163): the pH-adjustment stage is a stub
that always succeeds and passes the file through unchanged. -/
def Idata.ionize (ifile : String) : Bool × String := (true, ifile)

/-- `Idata.convert3D` (src/idata.py:165-178): pass-through when
`convert3D_method` is falsy; delegates to `_ETKDG` when that name is enabled;
otherwise fails with `'not converted to 3D'`. -/
def Idata.convert3D (ctrl : Control) (env : WEnv) (ifile : String) : Bool × String :=
  if ctrl.convert3D_method = none ∨ ctrl.convert3D_method = some [] then (true, ifile)
  else if (ctrl.convert3D_method.getD []).contains "ETKDG" then env.etkdg ifile
  else (false, "not converted to 3D")

/-- `Idata.computeMD_custom` (src/idata.py:180-195): the pluggable custom
descriptor generator is an empty stub. -/
def Idata.computeMD_custom (_ifile : String) : Bool × PyRes := (false, .str "not implemented")

/-- One `if <name> in self.control.MD: success, results = <call>; if success:
results_all.append(results)` block of `Idata.computeMD`.  The state is the
last `(success, results)` pair written (absent while no block has run, i.e.
while both names are still unbound) together with the `results_all`
accumulator. -/
def mdStep (st : Option (Bool × PyRes) × List PyRes) (enabled : Bool)
    (call : Unit → Bool × PyRes) : Option (Bool × PyRes) × List PyRes :=
  if enabled then
    let r := call ()
    (some r, if r.1 then st.2 ++ [r.2] else st.2)
  else st

/-- `Idata.computeMD` (src/idata.py:197-229) together with its internal
`results_all` accumulator (which the source fills but never returns).  The
three method blocks run in the source's fixed order; the function returns the
last block's `(success, results)` pair, except that when `results_all` is
empty it returns `(False, 'undefined MD')`.  The `.2` of the result is the
final `results_all`.  (The fallback arm of the match is unreachable: a
non-empty `results_all` implies some block ran and bound `success`/`results`.) -/
def Idata.computeMDFull (ctrl : Control) (env : WEnv) (ifile : String) :
    (Bool × PyRes) × List PyRes :=
  let s1 := mdStep (none, []) (ctrl.MD.contains "RDKit_properties") (fun _ => env.rdkitProps ifile)
  let s2 := mdStep s1 (ctrl.MD.contains "RDKit_md") (fun _ => env.rdkitDesc ifile)
  let s3 := mdStep s2 (ctrl.MD.contains "custom") (fun _ => Idata.computeMD_custom ifile)
  if s3.2.length = 0 then ((false, .str "undefined MD"), s3.2)
  else
    match s3.1 with
    | some r => (r, s3.2)
    | none => ((false, .str "undefined MD"), s3.2)

/-- The `(success, results)` pair `Idata.computeMD` actually returns. -/
def Idata.computeMD (ctrl : Control) (env : WEnv) (ifile : String) : Bool × PyRes :=
  (Idata.computeMDFull ctrl env ifile).1

/-- `Idata.workflow` (src/idata.py:282-323).  Transcribed statement by
statement: after a failed `normalize` the source builds the stage-tagged
message `'Input error: chemical standardization failed: ...'` but does not
return, so processing continues with `tfile` still the original file and the
message is later overwritten; the ionize and 3D stages do return early on
failure; `computeMD`'s outcome is returned at the end. -/
def Idata.workflow (ctrl : Control) (env : WEnv) (ifile : String) : Bool × PyRes :=
  let tfile := ifile
  let n := env.normalize tfile
  -- `results` is set to the tagged message when `n.1` is false, but that
  -- binding is dead: every later path overwrites it before returning.
  let tfile := if n.1 then n.2 else tfile
  if ctrl.ionize_method.isSome ∧ (Idata.ionize tfile).1 = false then
    (false, .str ("input error: molecule ionization error at position: " ++ (Idata.ionize tfile).2))
  else
    let tfile := if ctrl.ionize_method.isSome then (Idata.ionize tfile).2 else tfile
    if ctrl.convert3D_method.isSome ∧ (Idata.convert3D ctrl env tfile).1 = false then
      (false, .str ("input error: 3D conversion error at position: "
        ++ (Idata.convert3D ctrl env tfile).2))
    else
      let tfile := if ctrl.convert3D_method.isSome then (Idata.convert3D ctrl env tfile).2
        else tfile
      let md := Idata.computeMD ctrl env tfile
      if md.1 = false then (false, .str ("input error: failed computing MD: " ++ pyStr md.2))
      else md

/-- A configuration with ionization and 3D conversion disabled and one
descriptor method enabled, used to exercise the workflow. -/
def ctrlC2 : Control :=
  { chemstand_method := "standardize", ionize_method := none, convert3D_method := none,
    MD := ["RDKit_properties"], SDFile_name := "name", SDFile_activity := "activity",
    SDFile_experimental := "experim" }

/-- A stage environment in which chemical standardization fails outright while
descriptor computation on the (hence unnormalized) input succeeds. -/
def envC2 : WEnv :=
  { normalize := fun _ => (false, "cannot standardize"),
    etkdg := fun f => (true, f),
    rdkitProps := fun _ => (true, .mdpair ⟨[[1, 2]]⟩ ["d1", "d2"]),
    rdkitDesc := fun _ => (false, .str "rdkit md failed") }

/-- C2: with standardization failing on the input file, `workflow` does not
stop: it continues into `computeMD` on the original file and returns that
stage's success together with its descriptors, discarding the stage-tagged
normalization error message it had built. -/
theorem workflow_continues_after_normalize_failure :
    Idata.workflow ctrlC2 envC2 "input.sdf" = (true, .mdpair ⟨[[1, 2]]⟩ ["d1", "d2"]) := rfl

/-- A configuration enabling the RDKit-properties method and the custom
method (whose implementation is the always-failing stub). -/
def ctrlC7 : Control :=
  { chemstand_method := "standardize", ionize_method := none, convert3D_method := none,
    MD := ["RDKit_properties", "custom"], SDFile_name := "name",
    SDFile_activity := "activity", SDFile_experimental := "experim" }

/-- C7: with `RDKit_properties` succeeding and `custom` failing, `computeMD`
collects the successful pair into `results_all` (second component) but
returns the last method's failure `(False, 'not implemented')`: the collected
pairs are not carried by the return value even though one configured method
succeeded. -/
theorem computeMD_returns_last_method_not_collected :
    Idata.computeMDFull ctrlC7 envC2 "input.sdf" =
      ((false, .str "not implemented"), [PyRes.mdpair ⟨[[1, 2]]⟩ ["d1", "d2"]]) := rfl

/-! ## The standardization stage `Idata.normalize` (src/idata.py:91-157)

The stage is modelled at the level of its observable effects: the value it
returns and the ordered trace of events it performs on the output file, the
console and the input file. -/

/-- A molecule as far as `normalize` observes it: `Chem.MolToMolBlock(m)`. -/
structure Mol where
  molblock : String
deriving DecidableEq

/-- The outcome of the parse of one record by the `Chem.SDMolSupplier`
iterator: `none` models a structure RDKit cannot interpret. -/
abbrev SDRecord := Option Mol

/-- An input file as seen through `Chem.SDMolSupplier`: either the supplier
constructor itself raises, or it yields a sequence of parse outcomes. -/
inductive SDInput where
  | unreadable
  | parsed (mols : List SDRecord)

/-- Outcome of one call of `standardise.run` on a molblock: a canonical
parent molblock, a `StandardiseException` with its `name`, or any other
exception. -/
inductive StdOutcome where
  | ok (parent : String)
  | stdExc (name : String)
  | otherExc
deriving DecidableEq

/-- External collaborator of `normalize`: the standardiser. -/
structure NormEnv where
  standardiseRun : String → StdOutcome

/-- Observable events of a `normalize` run, in program order: opening and
closing the output file, writing a string to it, printing an error line to
the console, and attempting `os.remove` on the input file (`ok` tells
whether the removal succeeded or raised `OSError`). -/
inductive Event where
  | openOut
  | writeOut (s : String)
  | printErr (s : String)
  | closeOut
  | removeAttempt (ok : Bool)
deriving DecidableEq

/-- `'fl%0.10d' % mcount`: `fl` followed by the index zero-padded to 10
digits. -/
def formatFlameID (n : Nat) : String :=
  let s := toString n
  "fl" ++ String.mk (List.replicate (10 - s.length) '0') ++ s

/-- Index of the last occurrence of a character in a list, if any. -/
def findLastIdx (l : List Char) (c : Char) : Option Nat :=
  (l.reverse.findIdx? (· = c)).map (fun i => l.length - 1 - i)

/-- `os.path.splitext`: split at the extension dot, i.e. at the last dot that
comes after the last path separator and after at least one non-dot character
of the base name. -/
def splitext (p : String) : String × String :=
  let l := p.data
  match findLastIdx l '.' with
  | none => (p, "")
  | some di =>
    let start := match findLastIdx l '/' with
      | none => 0
      | some s => s + 1
    if start ≤ di ∧ (List.range' start (di - start)).any (fun j => l.getD j '.' ≠ '.') then
      (⟨l.take di⟩, ⟨l.drop di⟩)
    else (p, "")

/-- The output file name `filename + '_std' + fileext` built by `normalize`. -/
def stdName (ifile : String) : String :=
  let fe := splitext ifile
  fe.1 ++ "_std" ++ fe.2

/-- The three `fo.write` calls performed for one kept structure: the parent
molblock, the `flameID` property record, and the `$$$$` terminator. -/
def stdRecord (parent : String) (idx : Nat) : List Event :=
  [.writeOut parent,
   .writeOut (">  <flameID>\n" ++ formatFlameID idx ++ "\n\n"),
   .writeOut "$$$$\n"]

/-- Result of the `for m in suppl` loop of `normalize`: it either raises an
exception, returns early out of the whole function with a `(success, result)`
pair, or runs to completion; each case carries the events of the iterations
performed. -/
inductive LoopRes where
  | raised (e : PyErr) (evs : List Event)
  | early (ret : Bool × String) (evs : List Event)
  | done (evs : List Event)

/-- Prepend the events of an iteration in front of the rest of a loop run. -/
def addEvs (pre : List Event) : LoopRes → LoopRes
  | .raised e evs => .raised e (pre ++ evs)
  | .early r evs => .early r (pre ++ evs)
  | .done evs => .done (pre ++ evs)

/-- The `for m in suppl` loop of `normalize` (src/idata.py:118-147), with
`std` the truth of `self.control.chemstand_method == 'standardize'` and
`mcount`/`merror` the two counters.  An unparsed record prints an error line
and continues.  When `std` holds, a `no_non_salt` `StandardiseException`
keeps the original molblock, any other `StandardiseException` returns
`(False, e.name)` and any other exception returns `(False, 'Unknown
standardiser error')`.  When `std` does not hold, no branch ever assigns the
local `parent`, so the unconditional `fo.write(parent)` raises
`UnboundLocalError` at the first kept structure. -/
def normLoop (env : NormEnv) (std : Bool) :
    List SDRecord → Nat → Nat → LoopRes
  | [], _, _ => .done []
  | none :: rest, mcount, merror =>
    addEvs [.printErr ("ERROR: unable to process molecule #" ++ toString merror)]
      (normLoop env std rest mcount (merror + 1))
  | some m :: rest, mcount, merror =>
    if std then
      match env.standardiseRun m.molblock with
      | .ok parent => addEvs (stdRecord parent mcount) (normLoop env std rest (mcount + 1) merror)
      | .stdExc name =>
        if name = "no_non_salt" then
          addEvs (stdRecord m.molblock mcount) (normLoop env std rest (mcount + 1) merror)
        else .early (false, name) []
      | .otherExc => .early (false, "Unknown standardiser error") []
    else .raised .unboundLocal []

/-- What a run of `normalize` is observed to do: its return value (or the
exception it raises) and its event trace. -/
structure NormResult where
  ret : Except PyErr (Bool × String)
  events : List Event

/-- `Idata.normalize` (src/idata.py:91-157).  An unreadable input makes the
supplier constructor raise, which the `try` turns into a `(False, message)`
return.  Otherwise the output file is opened, the loop runs, and the `with`
block closes the file on every exit path (completion, early `return`, or
exception).  Only when the loop completes does the function reach the
`if clean:` block — `os.remove(ifile)` is attempted there and an `OSError` is
swallowed by `pass` — and return `(True, ofile)`. -/
def Idata.normalize (ctrl : Control) (env : NormEnv) (ifile : String) (inp : SDInput)
    (clean : Bool) (removeOk : Bool) : NormResult :=
  match inp with
  | .unreadable =>
    ⟨.ok (false, "Error at processing input file for standardizing structures"), []⟩
  | .parsed mols =>
    match normLoop env (ctrl.chemstand_method = "standardize") mols 0 0 with
    | .raised e evs => ⟨.error e, .openOut :: evs ++ [.closeOut]⟩
    | .early r evs => ⟨.ok r, .openOut :: evs ++ [.closeOut]⟩
    | .done evs =>
      ⟨.ok (true, stdName ifile),
        .openOut :: evs ++ [.closeOut] ++ (if clean then [.removeAttempt removeOk] else [])⟩

/-- A configuration identical to `ctrlC2` except that the normalization
procedure is disabled (`chemstand_method` is not `'standardize'`). -/
def ctrlNoStd : Control :=
  { chemstand_method := "None", ionize_method := none, convert3D_method := none,
    MD := ["RDKit_properties"], SDFile_name := "name", SDFile_activity := "activity",
    SDFile_experimental := "experim" }

/-- A standardiser that canonicalizes every molblock by prefixing it. -/
def envStd : NormEnv := ⟨fun s => .ok ("canonical:" ++ s)⟩

/-- C4: with standardization disabled and one parseable structure in the
file, `normalize` raises `UnboundLocalError` at `fo.write(parent)` (no branch
ever assigned `parent`), instead of writing the structure unchanged and
returning `(True, output path)`. -/
theorem normalize_noop_config_raises :
    Idata.normalize ctrlNoStd envStd "input.sdf" (.parsed [some ⟨"M1"⟩]) false true =
      ⟨.error .unboundLocal, [.openOut, .closeOut]⟩ := rfl

/-- The event trace of a run of consecutive kept structures whose
standardization yields `canon m`, numbered from `k` upwards. -/
def goodEvents (canon : Mol → String) : List Mol → Nat → List Event
  | [], _ => []
  | m :: rest, k => stdRecord (canon m) k ++ goodEvents canon rest (k + 1)

theorem addEvs_nil (r : LoopRes) : addEvs [] r = r := by
  cases r <;> simp [addEvs]

theorem addEvs_append (a b : List Event) (r : LoopRes) :
    addEvs (a ++ b) r = addEvs a (addEvs b r) := by
  cases r <;> simp [addEvs]

/-- Running the loop over a block of parseable structures that all
standardize successfully writes their records with consecutive identifiers
and continues with the remaining records and an advanced `mcount`. -/
theorem normLoop_allOk (env : NormEnv) (canon : Mol → String) (mols : List Mol)
    (rest : List SDRecord) (k e : Nat)
    (h : ∀ m ∈ mols, env.standardiseRun m.molblock = .ok (canon m)) :
    normLoop env true (mols.map some ++ rest) k e =
      addEvs (goodEvents canon mols k) (normLoop env true rest (k + mols.length) e) := by
  induction mols generalizing k with
  | nil => simp [goodEvents, addEvs_nil]
  | cons m tail ih =>
    have hm := h m (by simp)
    have ih' := ih (k + 1) (fun x hx => h x (by simp [hx]))
    have hlen : k + 1 + tail.length = k + (tail.length + 1) := by omega
    simp only [List.map_cons, List.cons_append, normLoop, hm, if_true, List.append_eq,
      goodEvents, List.length_cons]
    rw [ih', addEvs_append, hlen]

/-- C5: with standardization enabled and the standardiser canonicalizing
every valid structure, a file holding one malformed record among `M` valid
ones yields a success return and an output trace with exactly the `M`
canonical structures, tagged `fl` + zero-padded identifiers dense from `0` to
`M - 1` in original order; the malformed record produces one console error
line (the error counter, previously `0`, is printed and incremented) and
processing continues with the remaining structures. -/
theorem normalize_skips_malformed_densely (ctrl : Control)
    (hstd : ctrl.chemstand_method = "standardize") (env : NormEnv) (canon : Mol → String)
    (pre suf : List Mol) (ifile : String)
    (h1 : ∀ m ∈ pre, env.standardiseRun m.molblock = .ok (canon m))
    (h2 : ∀ m ∈ suf, env.standardiseRun m.molblock = .ok (canon m)) :
    Idata.normalize ctrl env ifile (.parsed (pre.map some ++ none :: suf.map some)) false true =
      ⟨.ok (true, stdName ifile),
       .openOut :: (goodEvents canon pre 0
          ++ Event.printErr "ERROR: unable to process molecule #0"
            :: goodEvents canon suf pre.length) ++ [.closeOut]⟩ := by
  have hloop : normLoop env true (pre.map some ++ none :: suf.map some) 0 0 =
      .done (goodEvents canon pre 0
        ++ Event.printErr "ERROR: unable to process molecule #0"
          :: goodEvents canon suf pre.length) := by
    rw [normLoop_allOk env canon pre _ 0 0 h1]
    have hmid : normLoop env true (none :: suf.map some) (0 + pre.length) 0 =
        addEvs [Event.printErr "ERROR: unable to process molecule #0"]
          (normLoop env true (suf.map some) (0 + pre.length) 1) := rfl
    rw [hmid]
    have hsuf : normLoop env true (suf.map some ++ []) (0 + pre.length) 1 =
        addEvs (goodEvents canon suf (0 + pre.length))
          (normLoop env true [] (0 + pre.length + suf.length) 1) :=
      normLoop_allOk env canon suf [] (0 + pre.length) 1 h2
    rw [List.append_nil] at hsuf
    rw [hsuf]
    simp [normLoop, addEvs]
  simp [Idata.normalize, hstd, hloop]

/-- C10: for every parseable input, the run with `clean=True` performs
exactly the events of the run without cleaning — in particular the output
file is completely written and closed — followed by at most one removal
attempt on the input file; when a removal is attempted the function has taken
the success path and returns `(True, output path)`; and the returned value is
the same whether the removal succeeds or raises a swallowed `OSError`
(`rok`), and the same as without cleaning at all. -/
theorem normalize_clean_removes_last (ctrl : Control) (env : NormEnv) (ifile : String)
    (mols : List SDRecord) (rok : Bool) :
    (∃ tail,
        (Idata.normalize ctrl env ifile (.parsed mols) true rok).events =
          (Idata.normalize ctrl env ifile (.parsed mols) false true).events ++ tail ∧
        (tail = [] ∨ (tail = [Event.removeAttempt rok] ∧
          (Idata.normalize ctrl env ifile (.parsed mols) true rok).ret =
            .ok (true, stdName ifile)))) ∧
    Event.closeOut ∈ (Idata.normalize ctrl env ifile (.parsed mols) false true).events ∧
    (Idata.normalize ctrl env ifile (.parsed mols) true rok).ret =
      (Idata.normalize ctrl env ifile (.parsed mols) false true).ret := by
  simp only [Idata.normalize]
  cases hl : normLoop env (ctrl.chemstand_method = "standardize") mols 0 0 with
  | raised e evs => exact ⟨⟨[], by simp⟩, by simp, rfl⟩
  | early r evs => exact ⟨⟨[], by simp⟩, by simp, rfl⟩
  | done evs => exact ⟨⟨[Event.removeAttempt rok], by simp, Or.inr ⟨rfl, rfl⟩⟩, by simp, rfl⟩

/-- Witness for `normalize_skips_malformed_densely` at a concrete two-valid,
one-malformed input. -/
theorem normalize_skips_malformed_densely_witness :
    Idata.normalize ctrlC2 envStd "input.sdf"
        (.parsed ([Mol.mk "A"].map some ++ none :: [Mol.mk "B"].map some)) false true =
      ⟨.ok (true, stdName "input.sdf"),
       .openOut :: (goodEvents (fun m => "canonical:" ++ m.molblock) [Mol.mk "A"] 0
          ++ Event.printErr "ERROR: unable to process molecule #0"
            :: goodEvents (fun m => "canonical:" ++ m.molblock) [Mol.mk "B"]
                [Mol.mk "A"].length) ++ [.closeOut]⟩ :=
  normalize_skips_malformed_densely ctrlC2 rfl envStd (fun m => "canonical:" ++ m.molblock)
    [Mol.mk "A"] [Mol.mk "B"] "input.sdf" (by decide) (by decide)

/-- Witness for `normalize_clean_removes_last` at a concrete input. -/
theorem normalize_clean_removes_last_witness :
    (∃ tail,
        (Idata.normalize ctrlC2 envStd "input.sdf" (.parsed [some ⟨"A"⟩]) true false).events =
          (Idata.normalize ctrlC2 envStd "input.sdf" (.parsed [some ⟨"A"⟩]) false true).events
            ++ tail ∧
        (tail = [] ∨ (tail = [Event.removeAttempt false] ∧
          (Idata.normalize ctrlC2 envStd "input.sdf" (.parsed [some ⟨"A"⟩]) true false).ret =
            .ok (true, stdName "input.sdf")))) ∧
    Event.closeOut ∈
      (Idata.normalize ctrlC2 envStd "input.sdf" (.parsed [some ⟨"A"⟩]) false true).events ∧
    (Idata.normalize ctrlC2 envStd "input.sdf" (.parsed [some ⟨"A"⟩]) true false).ret =
      (Idata.normalize ctrlC2 envStd "input.sdf" (.parsed [some ⟨"A"⟩]) false true).ret :=
  normalize_clean_removes_last ctrlC2 envStd "input.sdf" [some ⟨"A"⟩] false

/-! ## The record extractor `Idata.extractAnotations` (src/idata.py:45-89) -/

/-- A molecule as far as extraction observes it: its SD property fields
(`HasProp`/`GetProp`). -/
structure EMol where
  props : List (String × String)
deriving DecidableEq

/-- `mol.HasProp`/`mol.GetProp` combined: the value of the property, if
present. -/
def getProp (m : EMol) (key : String) : Option String :=
  (m.props.find? (fun kv => kv.1 = key)).map (fun kv => kv.2)

/-- An entry of a numpy `float64` array: a value or `NaN` (which is what
`np.array` turns a Python `None` into). -/
abbrev NpVal := Option Val

/-- External collaborators of extraction: `sdfu.getName` (resolving a
molecule name from the configured field or the position `i`), and Python
`float()` (returning `none` when the conversion raises `ValueError`). -/
structure ExtractEnv where
  getName : EMol → Nat → String
  floatOf : String → Option Val

/-- The `for i, mol in enumerate(suppl)` loop of `extractAnotations`
(src/idata.py:61-85): unparsed records are skipped; for each parsed molecule
the resolved name, the `float`-parsed activity (`None` when absent or
unconvertible) and the raw experimental property (`None` when absent) are
appended to the three parallel lists. -/
def extractLoop (ctrl : Control) (env : ExtractEnv) :
    List (Option EMol) → Nat → List String × List NpVal × List (Option String)
  | [], _ => ([], [], [])
  | none :: rest, i => extractLoop ctrl env rest (i + 1)
  | some m :: rest, i =>
    let r := extractLoop ctrl env rest (i + 1)
    let act : NpVal := match getProp m ctrl.SDFile_activity with
      | some s => env.floatOf s
      | none => none
    (env.getName m i :: r.1, act :: r.2.1, getProp m ctrl.SDFile_experimental :: r.2.2)

/-- `np.array(obj_exp, dtype=np.float64)` on a list of `None`-or-string
entries: `None` becomes `NaN`, a convertible string becomes its value, and a
non-convertible string makes numpy raise `ValueError`. -/
def npFloatArray (env : ExtractEnv) : List (Option String) → Except PyErr (List NpVal)
  | [] => .ok []
  | none :: rest => (npFloatArray env rest).map (fun t => none :: t)
  | some s :: rest =>
    match env.floatOf s with
    | some v => (npFloatArray env rest).map (fun t => some v :: t)
    | none => .error (.valueError ("could not convert string to float: " ++ s))

/-- `Idata.extractAnotations` (src/idata.py:45-89): run the loop, then build
the result tuple.  `np.array(obj_bio, ...)` cannot fail (its entries are
already floats or `None`), while the conversion of `obj_exp` can raise. -/
def Idata.extractAnotations (ctrl : Control) (env : ExtractEnv) (mols : List (Option EMol)) :
    Except PyErr (List String × List NpVal × List NpVal) :=
  let r := extractLoop ctrl env mols 0
  match npFloatArray env r.2.2 with
  | .error e => .error e
  | .ok ea => .ok (r.1, r.2.1, ea)

/-- A model of Python `float()` on the strings exercised here: nonempty
digit strings convert to their value, anything else raises. -/
def floatOfDigits (s : String) : Option Val :=
  if s.data ≠ [] ∧ s.data.all Char.isDigit then
    some (Int.ofNat (s.data.foldl (fun n c => n * 10 + (c.toNat - 48)) 0))
  else none

/-- A concrete extraction environment. -/
def envExtract : ExtractEnv :=
  { getName := fun _ i => "mol" ++ toString i, floatOf := floatOfDigits }

/-- C9 counterexample: a file with exactly one parseable structure (N = 1, no
unparseable ones) whose experimental field holds the non-numeric string
`abc` makes `extractAnotations` terminate with numpy's `ValueError` instead
of returning three length-1 sequences. -/
theorem extractAnotations_exp_string_raises :
    Idata.extractAnotations ctrlC2 envExtract [some ⟨[("experim", "abc")]⟩] =
      Except.error (PyErr.valueError "could not convert string to float: abc") := by rfl

theorem extractLoop_allSome (ctrl : Control) (env : ExtractEnv) (mols : List EMol) (k : Nat) :
    extractLoop ctrl env (mols.map some) k =
      ((mols.enumFrom k).map (fun p => env.getName p.2 p.1),
       mols.map (fun m => (getProp m ctrl.SDFile_activity).bind env.floatOf),
       mols.map (fun m => getProp m ctrl.SDFile_experimental)) := by
  induction mols generalizing k with
  | nil => simp [extractLoop]
  | cons m rest ih =>
    simp only [List.map_cons, extractLoop, ih (k + 1), List.enumFrom]
    cases h : getProp m ctrl.SDFile_activity <;> simp [h]

theorem npFloatArray_total (env : ExtractEnv) (l : List (Option String))
    (h : ∀ s, some s ∈ l → (env.floatOf s).isSome) :
    npFloatArray env l = .ok (l.map (fun o => o.bind env.floatOf)) := by
  induction l with
  | nil => simp [npFloatArray]
  | cons o rest ih =>
    have ih' := ih (fun s hs => h s (by simp [hs]))
    cases o with
    | none => simp [npFloatArray, ih', Except.map]
    | some s =>
      have hs := h s (by simp)
      cases hv : env.floatOf s with
      | none => rw [hv] at hs; simp at hs
      | some v => simp [npFloatArray, hv, ih', Except.map]

/-- C9 amended: on a file whose N structures all parse, and whose
experimental values (when present) are all float-convertible,
`extractAnotations` returns three parallel sequences, each of length N: the
resolved names in position order, the activities with any absent or
non-convertible value recorded as missing (`NaN`), and the converted
experimental values. -/
theorem extractAnotations_parallel_lists (ctrl : Control) (env : ExtractEnv)
    (mols : List EMol)
    (h : ∀ m ∈ mols, ∀ s, getProp m ctrl.SDFile_experimental = some s →
      (env.floatOf s).isSome) :
    Idata.extractAnotations ctrl env (mols.map some) =
      .ok (mols.enum.map (fun p => env.getName p.2 p.1),
           mols.map (fun m => (getProp m ctrl.SDFile_activity).bind env.floatOf),
           mols.map (fun m => (getProp m ctrl.SDFile_experimental).bind env.floatOf)) ∧
    (mols.enum.map (fun p => env.getName p.2 p.1)).length = mols.length ∧
    (mols.map (fun m => (getProp m ctrl.SDFile_activity).bind env.floatOf)).length
      = mols.length ∧
    (mols.map (fun m => (getProp m ctrl.SDFile_experimental).bind env.floatOf)).length
      = mols.length := by
  have harr : npFloatArray env (mols.map (fun m => getProp m ctrl.SDFile_experimental)) =
      .ok (mols.map (fun m => (getProp m ctrl.SDFile_experimental).bind env.floatOf)) := by
    rw [npFloatArray_total]
    · simp [Function.comp]
    · intro s hs
      simp only [List.mem_map] at hs
      obtain ⟨m, hm, hms⟩ := hs
      exact h m hm s hms
  refine ⟨?_, by simp [List.enum], by simp, by simp⟩
  simp only [Idata.extractAnotations, extractLoop_allSome ctrl env mols 0, List.enum, harr]

/-- Witness for `extractAnotations_parallel_lists`: two parsed molecules, one
with a non-convertible activity (recorded as missing) and a convertible
experimental value, one with no properties at all. -/
theorem extractAnotations_parallel_lists_witness :
    Idata.extractAnotations ctrlC2 envExtract
        ([EMol.mk [("activity", "abc"), ("experim", "7")], EMol.mk []].map some) =
      .ok (([EMol.mk [("activity", "abc"), ("experim", "7")], EMol.mk []].enum.map
              (fun p => envExtract.getName p.2 p.1)),
           [EMol.mk [("activity", "abc"), ("experim", "7")], EMol.mk []].map
             (fun m => (getProp m ctrlC2.SDFile_activity).bind envExtract.floatOf),
           [EMol.mk [("activity", "abc"), ("experim", "7")], EMol.mk []].map
             (fun m => (getProp m ctrlC2.SDFile_experimental).bind envExtract.floatOf)) ∧
    (([EMol.mk [("activity", "abc"), ("experim", "7")], EMol.mk []].enum.map
        (fun p => envExtract.getName p.2 p.1)).length = 2) ∧
    (([EMol.mk [("activity", "abc"), ("experim", "7")], EMol.mk []].map
        (fun m => (getProp m ctrlC2.SDFile_activity).bind envExtract.floatOf)).length = 2) ∧
    (([EMol.mk [("activity", "abc"), ("experim", "7")], EMol.mk []].map
        (fun m => (getProp m ctrlC2.SDFile_experimental).bind envExtract.floatOf)).length
      = 2) :=
  extractAnotations_parallel_lists ctrlC2 envExtract
    [EMol.mk [("activity", "abc"), ("experim", "7")], EMol.mk []] (by decide)

/-! ## The configuration stamp `Parameters.idataHash` (src/flame/parameters.py:384-413)

The stamp is modelled as the data fed to `pickle`/`md5`: the list of
`keylist` parameter values followed by the sorted list of `key + str(value)`
strings built from the `MD_settings` dictionary.  Stamp equality and
difference are stated at this level (the md5 hexdigest of the pickled buffer
is determined by it).  `MD_settings` values reach the hash only through
`str(...)`, so they are modelled as strings, and the dictionary's iteration
order is the association-list order. -/

/-- The string `key + str(md_params[key])` appended to `md_list` for one
`MD_settings` entry. -/
def mdEntry (kv : String × String) : String := kv.1 ++ kv.2

/-- Lexicographic comparison of character lists by code point — the order
Python's `list.sort` uses on strings. -/
def chLe : List Char → List Char → Bool
  | [], _ => true
  | _ :: _, [] => false
  | a :: as, b :: bs =>
    if a.toNat < b.toNat then true
    else if b.toNat < a.toNat then false
    else chLe as bs

/-- The string order used by `md_list.sort()`. -/
def strLe (a b : String) : Prop := chLe a.data b.data = true

instance : DecidableRel strLe :=
  fun a b => decidable_of_iff (chLe a.data b.data = true) Iff.rfl

theorem char_toNat_inj (a b : Char) (h : a.toNat = b.toNat) : a = b := by
  simpa [Char.ext_iff, UInt32.ext_iff] using h

theorem chLe_total : ∀ x y : List Char, chLe x y = true ∨ chLe y x = true := by
  intro x
  induction x with
  | nil => intro y; exact Or.inl rfl
  | cons a as ih =>
    intro y
    cases y with
    | nil => exact Or.inr rfl
    | cons b bs =>
      by_cases h1 : a.toNat < b.toNat
      · exact Or.inl (by simp [chLe, h1])
      · by_cases h2 : b.toNat < a.toNat
        · exact Or.inr (by simp [chLe, h2])
        · rcases ih bs with h | h
          · exact Or.inl (by simp [chLe, h1, h2, h])
          · exact Or.inr (by simp [chLe, h1, h2, h])

theorem chLe_trans : ∀ x y z : List Char,
    chLe x y = true → chLe y z = true → chLe x z = true := by
  intro x
  induction x with
  | nil => intro y z _ _; rfl
  | cons a as ih =>
    intro y z hxy hyz
    cases y with
    | nil => simp [chLe] at hxy
    | cons b bs =>
      cases z with
      | nil => simp [chLe] at hyz
      | cons c cs =>
        rcases Nat.lt_trichotomy a.toNat b.toNat with h1 | h1 | h1
        · rcases Nat.lt_trichotomy b.toNat c.toNat with h2 | h2 | h2
          · simp [chLe, Nat.lt_trans h1 h2]
          · simp [chLe, h2 ▸ h1]
          · simp [chLe, h2, Nat.lt_asymm h2] at hyz
        · rcases Nat.lt_trichotomy b.toNat c.toNat with h2 | h2 | h2
          · simp [chLe, h1 ▸ h2]
          · have e1 : chLe (a :: as) (b :: bs) = chLe as bs := by
              show (if a.toNat < b.toNat then true else if b.toNat < a.toNat then false
                else chLe as bs) = chLe as bs
              rw [if_neg (by omega), if_neg (by omega)]
            have e2 : chLe (b :: bs) (c :: cs) = chLe bs cs := by
              show (if b.toNat < c.toNat then true else if c.toNat < b.toNat then false
                else chLe bs cs) = chLe bs cs
              rw [if_neg (by omega), if_neg (by omega)]
            have e3 : chLe (a :: as) (c :: cs) = chLe as cs := by
              show (if a.toNat < c.toNat then true else if c.toNat < a.toNat then false
                else chLe as cs) = chLe as cs
              rw [if_neg (by omega), if_neg (by omega)]
            rw [e1] at hxy
            rw [e2] at hyz
            rw [e3]
            exact ih bs cs hxy hyz
          · simp [chLe, h2, Nat.lt_asymm h2] at hyz
        · simp [chLe, h1, Nat.lt_asymm h1] at hxy

theorem chLe_antisymm : ∀ x y : List Char,
    chLe x y = true → chLe y x = true → x = y := by
  intro x
  induction x with
  | nil =>
    intro y _ hyx
    cases y with
    | nil => rfl
    | cons b bs => simp [chLe] at hyx
  | cons a as ih =>
    intro y hxy hyx
    cases y with
    | nil => simp [chLe] at hxy
    | cons b bs =>
      rcases Nat.lt_trichotomy a.toNat b.toNat with h1 | h1 | h1
      · simp [chLe, h1, Nat.lt_asymm h1] at hyx
      · have hab : a = b := char_toNat_inj a b h1
        subst hab
        simp only [chLe, Nat.lt_irrefl, if_false] at hxy hyx
        rw [ih bs hxy hyx]
      · simp [chLe, h1, Nat.lt_asymm h1] at hxy

instance : IsTotal String strLe := ⟨fun a b => chLe_total a.data b.data⟩

instance : IsTrans String strLe := ⟨fun a b c => chLe_trans a.data b.data c.data⟩

instance : IsAntisymm String strLe :=
  ⟨fun a b hab hba => String.ext (chLe_antisymm a.data b.data hab hba)⟩

/-- `Parameters.idataHash`: the `idata_params` structure that is pickled and
hashed — the configured `keylist` values (`keyvals`) plus the sorted
`md_list`. -/
def Parameters.idataHash (keyvals : List (Option String)) (md : List (String × String)) :
    List (Option String) × List String :=
  (keyvals, List.insertionSort strLe (md.map mdEntry))

/-- C8 counterexample: two `MD_settings` dictionaries over the same keys
`a` and `ab` that differ in the value of sub-parameter `a` (`bX` vs `bY`)
produce the same sorted `md_list` (both concatenate to the strings `abX` and
`abY`), hence identical stamps. -/
theorem idataHash_value_collision :
    Parameters.idataHash [] [("a", "bX"), ("ab", "Y")] =
      Parameters.idataHash [] [("a", "bY"), ("ab", "X")] ∧
    [("a", "bX"), ("ab", "Y")].map Prod.fst = [("a", "bY"), ("ab", "X")].map Prod.fst ∧
    (("a", "bX") : String × String) ≠ ("a", "bY") := by
  refine ⟨by decide, rfl, by decide⟩

/-- No key of the list can be extended (by appending any string, possibly
empty) into another, distinct key of the list.  Under this condition the
concatenation `key ++ value` determines the key. -/
def keysLeadFree (ks : List String) : Prop :=
  ∀ k₁ ∈ ks, ∀ k₂ ∈ ks, k₁ ≠ k₂ → ∀ t : String, k₁ ++ t ≠ k₂

theorem append_split (a : List Char) : ∀ (c b d : List Char), a ++ b = c ++ d →
    (∃ t, a ++ t = c) ∨ (∃ t, c ++ t = a) := by
  induction a with
  | nil => intro c b d _; exact Or.inl ⟨c, rfl⟩
  | cons x xs ih =>
    intro c b d h
    cases c with
    | nil => exact Or.inr ⟨x :: xs, rfl⟩
    | cons y ys =>
      rw [List.cons_append, List.cons_append] at h
      injection h with h1 h2
      subst h1
      rcases ih ys b d h2 with ⟨t, ht⟩ | ⟨t, ht⟩
      · exact Or.inl ⟨t, by rw [List.cons_append, ht]⟩
      · exact Or.inr ⟨t, by rw [List.cons_append, ht]⟩

theorem strAppend_split (a c b d : String) (h : a ++ b = c ++ d) :
    (∃ t : String, a ++ t = c) ∨ (∃ t : String, c ++ t = a) := by
  have hd : a.data ++ b.data = c.data ++ d.data := congrArg String.data h
  rcases append_split a.data c.data b.data d.data hd with ⟨t, ht⟩ | ⟨t, ht⟩
  · refine Or.inl ⟨String.mk t, ?_⟩
    exact String.ext ht
  · refine Or.inr ⟨String.mk t, ?_⟩
    exact String.ext ht

/-- With pairwise non-extendable, duplicate-free keys, the multiset of
`key ++ value` concatenations determines the keyed values. -/
theorem mdKeyed_inj (ks : List String) (hfree : keysLeadFree ks) :
    ∀ (md₁ md₂ : List (String × String)),
      md₁.map Prod.fst = md₂.map Prod.fst →
      (md₁.map Prod.fst).Nodup →
      (∀ k ∈ md₁.map Prod.fst, k ∈ ks) →
      (md₁.map mdEntry).Perm (md₂.map mdEntry) → md₁ = md₂ := by
  intro md₁
  induction md₁ with
  | nil =>
    intro md₂ hk _ _ _
    exact (List.map_eq_nil_iff.mp hk.symm).symm
  | cons p t₁ ih =>
    intro md₂ hk hnd hsub hperm
    obtain ⟨k, v⟩ := p
    cases md₂ with
    | nil => simp at hk
    | cons q t₂ =>
      obtain ⟨k₂, v₂⟩ := q
      simp only [List.map_cons] at hk
      injection hk with hk1 hk2
      subst hk1
      simp only [List.map_cons, mdEntry] at hperm
      have hmem : k ++ v ∈ (k ++ v₂) :: t₂.map mdEntry := hperm.subset (by simp)
      have hv : v = v₂ := by
        rcases List.mem_cons.mp hmem with he | hm
        · have hd : k.data ++ v.data = k.data ++ v₂.data := congrArg String.data he
          exact @String.ext v v₂ (List.append_cancel_left hd)
        · exfalso
          simp only [List.mem_map] at hm
          obtain ⟨⟨k', v'⟩, hmem', he'⟩ := hm
          have hk'mem : k' ∈ t₁.map Prod.fst := by
            rw [hk2]; exact List.mem_map_of_mem Prod.fst hmem'
          have hk'ks : k' ∈ ks := hsub k' (by simp [hk'mem])
          have hkks : k ∈ ks := hsub k (by simp)
          have hne : k ≠ k' := fun hkk => (List.nodup_cons.mp hnd).1 (hkk ▸ hk'mem)
          have he'' : k' ++ v' = k ++ v := by simpa [mdEntry] using he'
          rcases strAppend_split k' k v' v he'' with ⟨t, ht⟩ | ⟨t, ht⟩
          · exact hfree k' hk'ks k hkks hne.symm t ht
          · exact hfree k hkks k' hk'ks hne t ht
      subst hv
      have hperm' : (t₁.map mdEntry).Perm (t₂.map mdEntry) := hperm.cons_inv
      have ht := ih t₂ hk2 (List.nodup_cons.mp hnd).2 (fun x hx => hsub x (by simp [hx])) hperm'
      rw [ht]

/-- C8 amended: (i) two `MD_settings` dictionaries that are permutations of
one another (same sub-parameters in a different iteration order) produce
identical stamps; (ii) provided no sub-parameter key extends into another
(`keysLeadFree`, violated by the counterexample's keys `a`/`ab`), two
dictionaries over the same duplicate-free keys that differ in some value
produce different stamps. -/
theorem idataHash_order_invariant_value_sensitive (kv : List (Option String))
    (md₁ md₂ : List (String × String)) :
    (md₁.Perm md₂ → Parameters.idataHash kv md₁ = Parameters.idataHash kv md₂) ∧
    (md₁.map Prod.fst = md₂.map Prod.fst → (md₁.map Prod.fst).Nodup →
      keysLeadFree (md₁.map Prod.fst) → md₁ ≠ md₂ →
      Parameters.idataHash kv md₁ ≠ Parameters.idataHash kv md₂) := by
  constructor
  · intro hp
    have hpm : (md₁.map mdEntry).Perm (md₂.map mdEntry) := hp.map mdEntry
    have hs : List.insertionSort strLe (md₁.map mdEntry) =
        List.insertionSort strLe (md₂.map mdEntry) :=
      List.eq_of_perm_of_sorted
        (((List.perm_insertionSort _ _).trans hpm).trans (List.perm_insertionSort _ _).symm)
        (List.sorted_insertionSort _ _) (List.sorted_insertionSort _ _)
    simp [Parameters.idataHash, hs]
  · intro hk hnd hfree hne heq
    apply hne
    have hsort : List.insertionSort strLe (md₁.map mdEntry) =
        List.insertionSort strLe (md₂.map mdEntry) :=
      congrArg Prod.snd heq
    have hpm : (md₁.map mdEntry).Perm (md₂.map mdEntry) :=
      ((List.perm_insertionSort strLe (md₁.map mdEntry)).symm.trans
        (hsort ▸ List.perm_insertionSort strLe (md₂.map mdEntry)))
    exact mdKeyed_inj (md₁.map Prod.fst) hfree md₁ md₂ hk hnd (fun _ h => h) hpm

/-- Witness for `idataHash_order_invariant_value_sensitive`: a reordered
two-key dictionary hashes identically, and two one-key dictionaries with
different values hash differently. -/
theorem idataHash_order_invariant_value_sensitive_witness :
    Parameters.idataHash [] [("b", "1"), ("a", "2")] =
      Parameters.idataHash [] [("a", "2"), ("b", "1")] ∧
    Parameters.idataHash [] [("a", "1")] ≠ Parameters.idataHash [] [("a", "2")] :=
  ⟨(idataHash_order_invariant_value_sensitive [] [("b", "1"), ("a", "2")]
      [("a", "2"), ("b", "1")]).1 (List.Perm.swap ("a", "2") ("b", "1") []),
   (idataHash_order_invariant_value_sensitive [] [("a", "1")] [("a", "2")]).2 rfl
     (by decide)
     (by
       intro k₁ h₁ k₂ h₂ hne t
       simp only [List.map_cons, List.map_nil, List.mem_singleton] at h₁ h₂
       subst h₁; subst h₂; exact absurd rfl hne)
     (by decide)⟩

end Flame
